import Mathlib

/-!
Shallow embedding of `cellprofiler/gui/namesubscriber.py`.

The embedded program is Python 2 code built on the wx toolkit.  We model:

* `align_twosided_items(parent, items, min_spacing, left_texts, right_texts)`
  as a pure function from the current labels of `items` (a list of strings),
  the two text lists, the platform flag (`wx.Platform == "__WXMSW__"`), the
  minimum spacing, and a text-measuring oracle
  (`parent.GetTextExtent(s)[0]`, modelled as `measure : String → Int`)
  to `Option (List String)`: `some newLabels` when the call returns normally
  with the items carrying `newLabels`, and `none` when the call raises
  (`max()` applied to an empty sequence raises `ValueError`; integer division
  by a zero `spacewidth` raises `ZeroDivisionError`).

* Python semantics used: `" " * n` is the empty string for `n ≤ 0`
  (`spaces`); `zip` truncates to the shortest argument (`List.zip`,
  `List.zipWith`, `overwriteLabels`); Python 2 `/` on integers is floor
  division (`Int.fdiv`), and the surrounding `int(...)` is the identity on
  an integer argument.

* `NameSubcriberComboBox` as a record of the state this file reads and
  writes: `orig_choices`, the embedded `wx.ComboBox` (its item strings,
  its current value and its selection index), and the text of the
  annotation `wx.StaticText`.
-/

/-- Python `" " * n`: a string of `n` spaces, empty when `n ≤ 0`. -/
def spaces (n : Int) : String := String.mk (List.replicate n.toNat ' ')

/-- The character-count measuring oracle `measureText(s) = len(s)` used by the
spec as its example of a deterministic, monotonic text measure. -/
def strLen (s : String) : Int := s.length

/-- Width of the reference string for one pair, from the source:
`parent.GetTextExtent("%s%s%s" % (left, " " * min_spacing, right))[0]`. -/
def pairWidth (measure : String → Int) (minSpacing : Int) (l r : String) : Int :=
  measure (l ++ spaces minSpacing ++ r)

/-- The `widths` list of the source: one `pairWidth` per element of
`zip(left_texts, right_texts)`. -/
def naturalWidths (measure : String → Int) (minSpacing : Int)
    (lefts rights : List String) : List Int :=
  (lefts.zip rights).map fun q => pairWidth measure minSpacing q.1 q.2

/-- Python `max` on a list of integers; the empty case is never consulted by
`align_twosided_items`, which models `max([])` raising `ValueError` as `none`
before `listMax` is applied. -/
def listMax : List Int → Int
  | [] => 0
  | w :: ws => ws.foldl max w

/-- The `spacewidth` of the source:
`parent.GetTextExtent("  ")[0] - parent.GetTextExtent(" ")[0]`. -/
def spaceUnitOf (measure : String → Int) : Int := measure "  " - measure " "

/-- The `numspaces` of the source:
`int(min_spacing + (maxwidth - initial_width) / spacewidth)` under Python 2
integer semantics, where `/` is floor division and `int(...)` is the
identity. -/
def numspaces (measure : String → Int) (minSpacing maxwidth spacewidth : Int)
    (l r : String) : Int :=
  minSpacing + Int.fdiv (maxwidth - pairWidth measure minSpacing l r) spacewidth

/-- One label of the Windows branch: `"%s\t%s" % (left, right)`. -/
def tabLabel (l r : String) : String := l ++ "\t" ++ r

/-- One label of the space-padding branch:
`"%s%s%s" % (left, " " * numspaces, right)` (the source builds the padding
with a space character repeated `numspaces` times). -/
def spaceLabel (measure : String → Int) (minSpacing maxwidth spacewidth : Int)
    (l r : String) : String :=
  l ++ spaces (numspaces measure minSpacing maxwidth spacewidth l r) ++ r

/-- Effect of the label-setting loops on the list of item labels: position `i`
receives `news[i]` while both lists have an element there (`zip` truncation),
and keeps its old label past the end of `news`. -/
def overwriteLabels (labels news : List String) : List String :=
  List.zipWith (fun _ n => n) labels news ++ labels.drop news.length

/-- The embedded `align_twosided_items`.  `isMSW` is
`wx.Platform == "__WXMSW__"`; `labels` is the current label of each item of
`items`; `none` models the two exceptions the body can raise, `ValueError`
from `max([])` and `ZeroDivisionError` from a zero `spacewidth`. -/
def align_twosided_items (isMSW : Bool) (measure : String → Int)
    (minSpacing : Int) (labels lefts rights : List String) :
    Option (List String) :=
  if labels.isEmpty then some labels
  else if isMSW then
    some (overwriteLabels labels (List.zipWith tabLabel lefts rights))
  else
    let prs := lefts.zip rights
    if prs.isEmpty then none
    else
      let widths := prs.map fun q => pairWidth measure minSpacing q.1 q.2
      let maxwidth := listMax widths
      let spacewidth := measure "  " - measure " "
      if spacewidth = 0 then none
      else some (overwriteLabels labels
        (prs.map fun q =>
          spaceLabel measure minSpacing maxwidth spacewidth q.1 q.2))

/-- Modelled from the spec: step 4 of the SpacePadded algorithm,
`extraSpaces = floor(minSpacing + (maxWidth - w) / spaceUnit)`, read with
exact rational division and the mathematical floor. -/
def extraSpacesSpec (minSpacing maxWidth w su : Int) : Int :=
  Int.floor ((minSpacing : ℚ) + ((maxWidth - w : Int) : ℚ) / ((su : Int) : ℚ))

/-- Modelled from the spec: the SpacePadded algorithm, steps 1 to 5, on a
sequence of pairs. -/
def specSpacePadded (measure : String → Int) (minSpacing : Int)
    (pairs : List (String × String)) : List String :=
  let widths := pairs.map fun p => measure (p.1 ++ spaces minSpacing ++ p.2)
  let maxWidth := listMax widths
  let su := measure "  " - measure " "
  pairs.map fun p =>
    p.1 ++ spaces (extraSpacesSpec minSpacing maxWidth
      (measure (p.1 ++ spaces minSpacing ++ p.2)) su) ++ p.2

/-- Embedded state of the underlying read-only `wx.ComboBox`: its item
strings, its displayed value, and its selection index. -/
structure WxCombo where
  items : List String
  value : String
  selection : Nat

/-- Modelled toolkit behavior of assigning `combo_dlg.Items`: the items are
replaced and the current selection is cleared, as recorded by the source
comment "on Mac, changing the items clears the current selection". -/
def comboSetItems (c : WxCombo) (its : List String) : WxCombo :=
  { c with items := its, value := "", selection := 0 }

/-- Modelled toolkit behavior of assigning `combo_dlg.Value` on a read-only
combo box: the value is stored and the selection moves to the matching
item. -/
def comboSetValue (c : WxCombo) (v : String) : WxCombo :=
  { c with value := v, selection := c.items.indexOf v }

/-- Embedded state of `NameSubcriberComboBox`: the stored choice rows
`(Name, Parent, modulenum)`, the embedded combo box, and the text of the
`wx.StaticText` that carries the derived annotation. -/
structure NameSubState where
  orig_choices : List (String × String × Nat)
  combo_dlg : WxCombo
  annot_label : String

/-- Python `"%02d" % n` for a natural number. -/
def fmt02 (n : Nat) : String :=
  if n < 10 then "0" ++ toString n else toString n

/-- The `update_annotation` method: clear the label, then, when there are
choices and the choice at the current selection has a nonempty second
component, derive the label from it.  Python reads
`self.orig_choices[self.combo_dlg.Selection]`; the embedding reads the same
row with `getD`, the toolkit keeping the selection of a read-only combo box
inside the item list. -/
def update_annot (s : NameSubState) : NameSubState :=
  if s.orig_choices.isEmpty then { s with annot_label := "" }
  else
    let ch := s.orig_choices.getD s.combo_dlg.selection ("", "", 0)
    if ch.2.1 = "" then { s with annot_label := "" }
    else
      { s with annot_label :=
          "(from " ++ ch.2.1 ++ " #" ++ fmt02 ch.2.2 ++ ")" }

/-- The `GetValue` method, also the getter of the `Value` property:
`self.combo_dlg.Value`. -/
def GetValueNS (s : NameSubState) : String := s.combo_dlg.value

/-- The `SetValue` method: assign `combo_dlg.Value`, then
`update_annotation` and `Refresh` (the latter has no modelled state). -/
def SetValueNS (s : NameSubState) (v : String) : NameSubState :=
  update_annot { s with combo_dlg := comboSetValue s.combo_dlg v }

/-- The `SetItems` method: store the new choices, read the current `Value`,
replace the combo box items with the choice names (which clears the current
selection), write the saved `Value` back, then `update_annotation` and
`Refresh`. -/
def SetItemsNS (s : NameSubState) (choices : List (String × String × Nat)) :
    NameSubState :=
  let s1 : NameSubState := { s with orig_choices := choices }
  let current := GetValueNS s1
  let s2 : NameSubState :=
    { s1 with combo_dlg := comboSetItems s1.combo_dlg (choices.map fun c => c.1) }
  update_annot (SetValueNS s2 current)

/-! Bridge between Python 2 floor division (`Int.fdiv`) and the mathematical
floor of exact rational division used by the spec. -/

theorem fdiv_neg_neg : ∀ (a : Int) (n : Nat),
    Int.fdiv (-a) (Int.ofNat (n + 1)) = Int.fdiv a (Int.negSucc n)
  | .ofNat 0, _ => rfl
  | .ofNat (_+1), _ => rfl
  | .negSucc _, _ => rfl

theorem fdiv_eq_floor_pos (a : Int) {b : Int} (hb : 0 < b) :
    Int.fdiv a b = Int.floor ((a : ℚ) / (b : ℚ)) := by
  rw [Int.fdiv_eq_ediv _ hb.le]
  have hbn : b = (b.toNat : Int) := (Int.toNat_of_nonneg hb.le).symm
  rw [hbn, ← Rat.floor_intCast_div_natCast a b.toNat]
  norm_cast

theorem fdiv_eq_floor (a : Int) {b : Int} (hb : b ≠ 0) :
    Int.fdiv a b = Int.floor ((a : ℚ) / (b : ℚ)) := by
  rcases lt_or_gt_of_ne hb with hneg | hpos
  · obtain ⟨n, rfl⟩ := Int.eq_negSucc_of_lt_zero hneg
    rw [← fdiv_neg_neg a n]
    have hpos2 : (0 : Int) < Int.ofNat (n + 1) := by
      rw [Int.ofNat_eq_natCast]; exact_mod_cast Nat.succ_pos n
    rw [fdiv_eq_floor_pos (-a) hpos2]
    congr 1
    rw [Int.ofNat_eq_natCast, Int.cast_negSucc, div_neg, Int.cast_neg, neg_div]
    norm_num
  · exact fdiv_eq_floor_pos a hpos

theorem numspaces_eq_extraSpacesSpec (measure : String → Int)
    (m maxW su : Int) (l r : String) (hsu : su ≠ 0) :
    numspaces measure m maxW su l r =
      extraSpacesSpec m maxW (pairWidth measure m l r) su := by
  unfold numspaces extraSpacesSpec
  rw [fdiv_eq_floor _ hsu, Int.floor_int_add]

/-! Facts about `listMax` and `overwriteLabels`. -/

theorem foldl_max_le_init (ws : List Int) (a : Int) : a ≤ ws.foldl max a := by
  induction ws generalizing a with
  | nil => exact le_refl a
  | cons w ws ih => exact le_trans (le_max_left a w) (ih (max a w))

theorem mem_le_foldl_max : ∀ (ws : List Int) (a x : Int), x ∈ ws →
    x ≤ ws.foldl max a
  | [], _, _, hx => by cases hx
  | w :: ws, a, x, hx => by
    rcases List.mem_cons.mp hx with rfl | hmem
    · exact le_trans (le_max_right a x) (foldl_max_le_init ws (max a x))
    · exact mem_le_foldl_max ws (max a w) x hmem

theorem le_listMax {ws : List Int} {x : Int} (hx : x ∈ ws) : x ≤ listMax ws := by
  cases ws with
  | nil => cases hx
  | cons w ws =>
    rcases List.mem_cons.mp hx with rfl | hmem
    · exact foldl_max_le_init ws x
    · exact mem_le_foldl_max ws w x hmem

theorem overwriteLabels_length (labels news : List String) :
    (overwriteLabels labels news).length = labels.length := by
  unfold overwriteLabels
  simp
  omega

theorem zipWith_snd_eq : ∀ (labels news : List String),
    news.length ≤ labels.length →
    List.zipWith (fun _ n => n) labels news = news
  | _, [], _ => by simp
  | [], _ :: _, h => by simp at h
  | _ :: as, _ :: bs, h => by
    simp only [List.zipWith]
    rw [zipWith_snd_eq as bs (by simpa using h)]

theorem overwriteLabels_eq (labels news : List String)
    (h : news.length = labels.length) : overwriteLabels labels news = news := by
  unfold overwriteLabels
  rw [zipWith_snd_eq labels news h.le, h, List.drop_length, List.append_nil]

theorem overwriteLabels_get_lt (labels news : List String) (i : Nat)
    (h1 : i < labels.length) (h2 : i < news.length) :
    (overwriteLabels labels news).get
        ⟨i, by rw [overwriteLabels_length]; exact h1⟩ =
      news.get ⟨i, h2⟩ := by
  have hz : i < (List.zipWith (fun _ n : String => n) labels news).length := by
    simp; omega
  simp only [overwriteLabels, List.get_eq_getElem]
  rw [List.getElem_append_left hz, List.getElem_zipWith]

theorem overwriteLabels_get_ge (labels news : List String) (i : Nat)
    (h1 : i < labels.length) (h2 : news.length ≤ i) :
    (overwriteLabels labels news).get
        ⟨i, by rw [overwriteLabels_length]; exact h1⟩ =
      labels.get ⟨i, h1⟩ := by
  have hz : (List.zipWith (fun _ n : String => n) labels news).length =
      news.length := by
    simp; omega
  simp only [overwriteLabels, List.get_eq_getElem]
  rw [List.getElem_append_right (by omega)]
  rw [List.getElem_drop]
  congr 1
  omega

theorem overwriteLabels_getD_frame (labels news : List String) (i : Nat)
    (h : min labels.length news.length ≤ i) :
    (overwriteLabels labels news).getD i "" = labels.getD i "" := by
  by_cases h1 : i < labels.length
  · have h2 : news.length ≤ i := by omega
    have hb : i < (overwriteLabels labels news).length := by
      rw [overwriteLabels_length]; exact h1
    rw [List.getD_eq_getElem _ _ hb, List.getD_eq_getElem _ _ h1]
    have := overwriteLabels_get_ge labels news i h1 h2
    simpa using this
  · rw [List.getD_eq_default _ _ (by rw [overwriteLabels_length]; omega),
      List.getD_eq_default _ _ (by omega)]

theorem spaces_length (n : Int) : (spaces n).length = n.toNat := by
  simp [spaces]

theorem pairWidth_strLen (m : Int) (l r : String) :
    pairWidth strLen m l r =
      (l.length : Int) + (m.toNat : Int) + (r.length : Int) := by
  simp [pairWidth, strLen, spaces_length]

theorem update_annot_combo (s : NameSubState) :
    (update_annot s).combo_dlg = s.combo_dlg := by
  unfold update_annot
  split
  · rfl
  · dsimp only
    split <;> rfl

/-! Unfolding lemmas for the three paths through `align_twosided_items`. -/

theorem align_nil (isMSW : Bool) (measure : String → Int) (m : Int)
    (lefts rights : List String) :
    align_twosided_items isMSW measure m [] lefts rights = some [] := rfl

theorem align_msw (measure : String → Int) (m : Int)
    (labels lefts rights : List String) (h : labels ≠ []) :
    align_twosided_items true measure m labels lefts rights =
      some (overwriteLabels labels (List.zipWith tabLabel lefts rights)) := by
  unfold align_twosided_items
  simp [h]

theorem align_space (measure : String → Int) (m : Int)
    (labels lefts rights : List String) (h1 : labels ≠ [])
    (h2 : lefts.zip rights ≠ []) (h3 : spaceUnitOf measure ≠ 0) :
    align_twosided_items false measure m labels lefts rights =
      some (overwriteLabels labels ((lefts.zip rights).map fun q =>
        spaceLabel measure m (listMax (naturalWidths measure m lefts rights))
          (spaceUnitOf measure) q.1 q.2)) := by
  unfold align_twosided_items
  simp only [naturalWidths, spaceUnitOf] at *
  simp [h1, h2, h3]

theorem align_none_iff (isMSW : Bool) (measure : String → Int) (m : Int)
    (labels lefts rights : List String) :
    align_twosided_items isMSW measure m labels lefts rights = none ↔
      labels ≠ [] ∧ isMSW = false ∧
        (lefts.zip rights = [] ∨ spaceUnitOf measure = 0) := by
  unfold align_twosided_items
  rcases labels with _ | ⟨a, labels⟩
  · simp
  · cases isMSW
    · by_cases h2 : lefts.zip rights = []
      · simp [h2, spaceUnitOf]
      · by_cases h3 : measure "  " - measure " " = 0 <;>
          simp [h2, h3, spaceUnitOf]
    · simp

example :
    align_twosided_items false strLen 2 ["A", "B"] ["a", "bb"] ["x", "y"] =
      some ["a   x", "bb  y"] := by decide

example :
    align_twosided_items true strLen 8 ["A"] ["Foo"] ["Bar#01"] =
      some ["Foo\tBar#01"] := by decide

example : align_twosided_items false strLen 8 ["A"] [] [] = none := by decide

example :
    align_twosided_items false (fun _ => 0) 8 ["A"] ["x"] ["y"] = none := by
  decide

/-! Claim theorems. -/

/-- C5: for every platform flag, measuring oracle and minimum spacing,
`align_twosided_items` applied to the empty pair sequence (no items, no left
texts, no right texts) returns normally with the empty sequence: the guard
`if items:` short-circuits before `max(widths)` is reached, so no
undefined-maximum error can occur. -/
theorem C5_empty_input (isMSW : Bool) (measure : String → Int) (m : Int) :
    align_twosided_items isMSW measure m [] [] [] = some [] :=
  align_nil isMSW measure m [] []

/-- C4: in tab-delimited (Windows) mode, on equal-length inputs, row `i` of
the output is exactly `left_i ++ TAB ++ right_i`; the measuring oracle and
the minimum spacing do not occur on the right-hand side, so they have no
effect on the result. -/
theorem C4_tab_mode (measure : String → Int) (m : Int)
    (labels lefts rights : List String)
    (h1 : lefts.length = labels.length) (h2 : rights.length = labels.length) :
    align_twosided_items true measure m labels lefts rights =
      some (List.zipWith tabLabel lefts rights) := by
  by_cases h : labels = []
  · subst h
    have hl : lefts = [] := List.eq_nil_of_length_eq_zero (by simpa using h1)
    have hr : rights = [] := List.eq_nil_of_length_eq_zero (by simpa using h2)
    subst hl; subst hr
    rfl
  · rw [align_msw measure m labels lefts rights h, overwriteLabels_eq]
    simp [h1, h2]

/-- C4 witness: `align([("Foo", "Bar#01")], 8, TabDelimited, strLen)`
produces the single label `"Foo\tBar#01"`. -/
theorem C4_witness :
    align_twosided_items true strLen 8 ["x"] ["Foo"] ["Bar#01"] =
      some ["Foo\tBar#01"] := by
  rw [C4_tab_mode strLen 8 ["x"] ["Foo"] ["Bar#01"] (by decide) (by decide)]
  decide

/-- C2 counterexample: the claim says malformed input fails with
`InvalidArgument`.  On mismatched lengths (one left text against two right
texts and two items) the code instead returns normally, silently truncating
to one pair, and a negative `minSpacing` is likewise accepted. -/
theorem C2_counterexample :
    align_twosided_items false strLen 8 ["A", "B"] ["x"] ["y", "z"] =
      some ["x        y", "B"] ∧
    align_twosided_items false strLen (-3) ["A"] ["x"] ["y"] =
      some ["xy"] := by
  decide

/-- C2 amended: `align_twosided_items` performs no argument validation at
all.  The call fails if and only if it takes the space-padded branch with a
non-empty item list and either the zipped pair list is empty (`max` of an
empty sequence) or the measured space unit is zero (division by zero);
mismatched lengths are silently truncated by `zip`, and a negative
`minSpacing` is accepted. -/
theorem C2_no_invalid_argument (isMSW : Bool) (measure : String → Int)
    (m : Int) (labels lefts rights : List String) :
    align_twosided_items isMSW measure m labels lefts rights = none ↔
      labels ≠ [] ∧ isMSW = false ∧
        (lefts.zip rights = [] ∨ spaceUnitOf measure = 0) :=
  align_none_iff isMSW measure m labels lefts rights

/-- C10: `SetItems` reads the current `Value` before replacing the combo box
items and writes the same `Value` back afterwards, so the value of the
widget is unchanged by `SetItems`; only the item list and the derived
annotation label change. -/
theorem C10_setitems_preserves_value (s : NameSubState)
    (choices : List (String × String × Nat)) :
    GetValueNS (SetItemsNS s choices) = GetValueNS s := by
  unfold SetItemsNS GetValueNS SetValueNS
  rw [update_annot_combo, update_annot_combo]
  rfl

/-- C1: in space-padded mode, on a non-empty equal-length input, with a
non-negative minimum spacing and a measuring oracle whose space unit
`width("  ") - width(" ")` is nonzero (so that the floor expression of the
spec is defined), `align_twosided_items` computes exactly the algorithm of
the spec: it measures each pair as `width(left + minSpacing spaces + right)`,
takes the maximum of these widths, and emits per pair
`left + floor(minSpacing + (maxWidth - w) / spaceUnit)` spaces `+ right`. -/
theorem C1_space_padded_algorithm (measure : String → Int) (m : Int)
    (labels lefts rights : List String) (_hm : 0 ≤ m)
    (h1 : lefts.length = labels.length) (h2 : rights.length = labels.length)
    (h0 : labels ≠ []) (hsu : spaceUnitOf measure ≠ 0) :
    align_twosided_items false measure m labels lefts rights =
      some (specSpacePadded measure m (lefts.zip rights)) := by
  have hzlen : (lefts.zip rights).length = labels.length := by
    rw [List.length_zip]; omega
  have hz : lefts.zip rights ≠ [] := by
    intro h
    rw [h] at hzlen
    exact h0 (List.eq_nil_of_length_eq_zero hzlen.symm)
  rw [align_space measure m labels lefts rights h0 hz hsu,
    overwriteLabels_eq _ _ (by rw [List.length_map, hzlen])]
  refine congrArg some ?_
  simp only [specSpacePadded, naturalWidths]
  refine List.map_congr_left fun q hq => ?_
  simp only [spaceLabel, pairWidth]
  rw [numspaces_eq_extraSpacesSpec measure m _ _ q.1 q.2 hsu]
  rfl

/-- C1 witness: the algorithm equation instantiated at a concrete
two-row input measured by character count. -/
theorem C1_witness :
    align_twosided_items false strLen 8 ["A", "B"] ["a", "bb"] ["x", "y"] =
      some (specSpacePadded strLen 8 (["a", "bb"].zip ["x", "y"])) :=
  C1_space_padded_algorithm strLen 8 ["A", "B"] ["a", "bb"] ["x", "y"]
    (by decide) (by decide) (by decide) (by decide) (by decide)

/-- C8 counterexample: the claim says a zero or negative space unit is
clamped and never crashes.  With the constant oracle (space unit zero) the
space-padded branch instead raises `ZeroDivisionError` at
`(maxwidth - initial_width) / spacewidth`, modelled as `none`. -/
theorem C8_counterexample :
    align_twosided_items false (fun _ => 0) 8 ["A"] ["x"] ["y"] = none := by
  decide

/-- C8 amended: a degenerate space unit does not crash only when it is
strictly negative: then the space-padded branch still returns a label for
every item (Python floor division accepts a negative divisor, and a
negative space count renders as the empty padding); when the space unit is
exactly zero, the division raises `ZeroDivisionError`. -/
theorem C8_negative_space_unit (measure : String → Int) (m : Int)
    (labels lefts rights : List String) (h1 : labels ≠ [])
    (h2 : lefts.zip rights ≠ []) (h3 : spaceUnitOf measure < 0) :
    ∃ out, align_twosided_items false measure m labels lefts rights =
        some out ∧ out.length = labels.length :=
  ⟨_, align_space measure m labels lefts rights h1 h2 h3.ne,
    overwriteLabels_length _ _⟩

/-- C8 witness: the amended statement at a shrinking oracle whose space
unit is `-1`. -/
theorem C8_witness :
    ∃ out, align_twosided_items false (fun s => -(strLen s)) 8 ["A"] ["x"]
        ["y"] = some out ∧ out.length = (["A"] : List String).length :=
  C8_negative_space_unit (fun s => -(strLen s)) 8 ["A"] ["x"] ["y"]
    (by decide) (by decide) (by decide)

/-- C3 counterexample: with the monotonic, deterministic character-count
oracle, two rows whose right texts have different widths land their right
columns at different offsets.  On the input with rows `("a", "xx")` and
`("a", "x")` the computed labels are `"axx"` and `"a x"`: row one places its
right text at measured offset `strLen "a" = 1`, row two at
`strLen "a " = 2`.  The left-plus-padding width of row one is not within
one space unit of the maximum natural width (`1 < 3 - 1`), and the two
offsets do not differ by less than one space width (`2 - 1 < 1` is false). -/
theorem C3_counterexample :
    align_twosided_items false strLen 0 ["", ""] ["a", "a"] ["xx", "x"] =
      some ["axx", "a x"] ∧
    ¬ (listMax (naturalWidths strLen 0 ["a", "a"] ["xx", "x"]) -
        spaceUnitOf strLen ≤ strLen "a") ∧
    ¬ (strLen "a " - strLen "a" < spaceUnitOf strLen) := by
  decide

/-- C3 amended: the space-padding branch aligns right EDGES, not right-column
start offsets.  Under the character-count oracle, on a non-empty equal-length
input with non-negative minimum spacing, every output row has measured width
exactly the maximum natural width, so the right texts end at a common
offset; the right-column start offsets consequently coincide only for rows
whose right texts have equal width, and in general differ by the difference
of the right-text widths. -/
theorem C3_right_edges_align (m : Int) (hm : 0 ≤ m)
    (labels lefts rights : List String)
    (h1 : lefts.length = labels.length) (h2 : rights.length = labels.length)
    (h0 : labels ≠ []) :
    ∃ out, align_twosided_items false strLen m labels lefts rights =
        some out ∧
      ∀ i : Nat, i < out.length →
        strLen (out.getD i "") =
          listMax (naturalWidths strLen m lefts rights) := by
  have hsu : spaceUnitOf strLen ≠ 0 := by decide
  have hzlen : (lefts.zip rights).length = labels.length := by
    rw [List.length_zip]; omega
  have hz : lefts.zip rights ≠ [] := by
    intro h
    rw [h] at hzlen
    exact h0 (List.eq_nil_of_length_eq_zero hzlen.symm)
  refine ⟨_, align_space strLen m labels lefts rights h0 hz hsu, ?_⟩
  rw [overwriteLabels_eq _ _ (by rw [List.length_map, hzlen])]
  intro i hi
  rw [List.length_map] at hi
  have hi2 : i < ((lefts.zip rights).map fun q =>
      spaceLabel strLen m (listMax (naturalWidths strLen m lefts rights))
        (spaceUnitOf strLen) q.1 q.2).length := by
    rw [List.length_map]; exact hi
  rw [List.getD_eq_getElem _ _ hi2, List.getElem_map]
  have hwmem : pairWidth strLen m ((lefts.zip rights))[i].1
      ((lefts.zip rights))[i].2 ∈ naturalWidths strLen m lefts rights :=
    List.mem_map_of_mem _ (List.getElem_mem hi)
  have hle := le_listMax hwmem
  have hW := pairWidth_strLen m ((lefts.zip rights))[i].1
    ((lefts.zip rights))[i].2
  have hsu1 : spaceUnitOf strLen = 1 := by decide
  simp only [hsu1]
  simp only [spaceLabel, numspaces, Int.fdiv_one, strLen,
    String.length_append, spaces_length]
  omega

/-- C3 witness: the amended statement at a concrete two-row input. -/
theorem C3_witness :
    ∃ out, align_twosided_items false strLen 8 ["A", "B"] ["a", "bb"]
        ["x", "y"] = some out ∧
      ∀ i : Nat, i < out.length →
        strLen (out.getD i "") =
          listMax (naturalWidths strLen 8 ["a", "bb"] ["x", "y"]) :=
  C3_right_edges_align 8 (by decide) ["A", "B"] ["a", "bb"] ["x", "y"]
    (by decide) (by decide) (by decide)

/-- C6: on equal-length inputs, whenever `align_twosided_items` returns
normally the output has exactly as many labels as there are items, and the
label at index `i` is derived only from the pair at index `i` (together
with, in space-padded mode, the aggregate maximum width and space unit);
the output is never reordered relative to the input. -/
theorem C6_length_order (isMSW : Bool) (measure : String → Int) (m : Int)
    (labels lefts rights out : List String)
    (h1 : lefts.length = labels.length) (h2 : rights.length = labels.length)
    (hout : align_twosided_items isMSW measure m labels lefts rights =
      some out) :
    out.length = labels.length ∧
      ∀ i : Nat, i < out.length →
        out.getD i "" =
          if isMSW then tabLabel (lefts.getD i "") (rights.getD i "")
          else
            spaceLabel measure m
              (listMax (naturalWidths measure m lefts rights))
              (spaceUnitOf measure) (lefts.getD i "")
              (rights.getD i "") := by
  by_cases h0 : labels = []
  · subst h0
    rw [align_nil] at hout
    cases hout
    exact ⟨rfl, fun i hi => absurd hi (by simp)⟩
  · have hzlen : (lefts.zip rights).length = labels.length := by
      rw [List.length_zip]; omega
    have hz : lefts.zip rights ≠ [] := by
      intro h
      rw [h] at hzlen
      exact h0 (List.eq_nil_of_length_eq_zero hzlen.symm)
    cases isMSW with
    | true =>
      rw [align_msw measure m labels lefts rights h0,
        overwriteLabels_eq _ _ (by rw [List.length_zipWith]; omega)] at hout
      cases hout
      constructor
      · rw [List.length_zipWith]; omega
      · intro i hi
        rw [List.length_zipWith] at hi
        have hiz : i < (List.zipWith tabLabel lefts rights).length := by
          rw [List.length_zipWith]; omega
        have hil : i < lefts.length := by omega
        have hir : i < rights.length := by omega
        rw [List.getD_eq_getElem _ _ hiz, List.getElem_zipWith,
          List.getD_eq_getElem _ _ hil, List.getD_eq_getElem _ _ hir]
        rfl
    | false =>
      by_cases hsu : spaceUnitOf measure = 0
      · have : align_twosided_items false measure m labels lefts rights =
            none :=
          (align_none_iff false measure m labels lefts rights).mpr
            ⟨h0, rfl, Or.inr hsu⟩
        rw [this] at hout
        cases hout
      · rw [align_space measure m labels lefts rights h0 hz hsu,
          overwriteLabels_eq _ _ (by rw [List.length_map, hzlen])] at hout
        cases hout
        constructor
        · rw [List.length_map]; omega
        · intro i hi
          rw [List.length_map, List.length_zip] at hi
          have hiz : i < ((lefts.zip rights).map fun q =>
              spaceLabel measure m
                (listMax (naturalWidths measure m lefts rights))
                (spaceUnitOf measure) q.1 q.2).length := by
            rw [List.length_map, List.length_zip]; omega
          have hizip : i < (lefts.zip rights).length := by
            rw [List.length_zip]; omega
          have hil : i < lefts.length := by omega
          have hir : i < rights.length := by omega
          rw [List.getD_eq_getElem _ _ hiz, List.getElem_map,
            List.getD_eq_getElem _ _ hil, List.getD_eq_getElem _ _ hir,
            List.getElem_zip]
          simp

/-- C6 witness: the length-and-order statement at a concrete space-padded
run. -/
theorem C6_witness :
    (["a   x", "bb  y"] : List String).length =
        (["A", "B"] : List String).length ∧
      ∀ i : Nat, i < (["a   x", "bb  y"] : List String).length →
        (["a   x", "bb  y"] : List String).getD i "" =
          if false then
            tabLabel ((["a", "bb"] : List String).getD i "")
              ((["x", "y"] : List String).getD i "")
          else
            spaceLabel strLen 2
              (listMax (naturalWidths strLen 2 ["a", "bb"] ["x", "y"]))
              (spaceUnitOf strLen) ((["a", "bb"] : List String).getD i "")
              ((["x", "y"] : List String).getD i "") :=
  C6_length_order false strLen 2 ["A", "B"] ["a", "bb"] ["x", "y"]
    ["a   x", "bb  y"] (by decide) (by decide) (by decide)

/-- C7: under the character-count oracle, for two pairs of one input where
pair `A` has the strictly shorter left text and the right texts have equal
length, the space-padding count computed for `A` is at least the one
computed for `B`. -/
theorem C7_monotone (m : Int) (lefts rights : List String) (i j : Nat)
    (_hi : i < lefts.length) (_hj : j < lefts.length)
    (_hi2 : i < rights.length) (_hj2 : j < rights.length)
    (hlt : (lefts.getD i "").length < (lefts.getD j "").length)
    (hr : (rights.getD i "").length = (rights.getD j "").length) :
    numspaces strLen m (listMax (naturalWidths strLen m lefts rights))
        (spaceUnitOf strLen) (lefts.getD j "") (rights.getD j "") ≤
      numspaces strLen m (listMax (naturalWidths strLen m lefts rights))
        (spaceUnitOf strLen) (lefts.getD i "") (rights.getD i "") := by
  have hsu1 : spaceUnitOf strLen = 1 := by decide
  simp only [hsu1, numspaces, Int.fdiv_one]
  have hWi := pairWidth_strLen m (lefts.getD i "") (rights.getD i "")
  have hWj := pairWidth_strLen m (lefts.getD j "") (rights.getD j "")
  omega

/-- C7 witness: the monotonicity statement at a concrete input whose first
left text is shorter than its second. -/
theorem C7_witness :
    numspaces strLen 8 (listMax (naturalWidths strLen 8 ["a", "bb"]
        ["x", "y"])) (spaceUnitOf strLen)
        ((["a", "bb"] : List String).getD 1 "")
        ((["x", "y"] : List String).getD 1 "") ≤
      numspaces strLen 8 (listMax (naturalWidths strLen 8 ["a", "bb"]
        ["x", "y"])) (spaceUnitOf strLen)
        ((["a", "bb"] : List String).getD 0 "")
        ((["x", "y"] : List String).getD 0 "") :=
  C7_monotone 8 ["a", "bb"] ["x", "y"] 0 1 (by decide) (by decide)
    (by decide) (by decide) (by decide) (by decide)

/-- C9 counterexample: the claim says no error is raised on shorter text
lists.  With one item and empty text lists the space-padded branch applies
`max` to the empty `widths` list and raises `ValueError`, modelled as
`none`. -/
theorem C9_counterexample :
    align_twosided_items false strLen 8 ["A"] [] [] = none := by decide

/-- C9 amended: on a non-empty item list, provided the run reaches the
label-setting loop (always in tab mode; in space-padded mode when at least
one left/right pair exists and the space unit is nonzero), the call returns
normally, sets labels only for the first
`min(len(items), len(left_texts), len(right_texts))` items, and every item
past that index keeps its previous label; when the item list is non-empty
but the zipped pair list is empty in space-padded mode, `max` of the empty
width sequence raises instead. -/
theorem C9_truncation_frame (isMSW : Bool) (measure : String → Int) (m : Int)
    (labels lefts rights : List String) (h0 : labels ≠ [])
    (hok : isMSW = true ∨
      (lefts.zip rights ≠ [] ∧ spaceUnitOf measure ≠ 0)) :
    ∃ out, align_twosided_items isMSW measure m labels lefts rights =
        some out ∧
      out.length = labels.length ∧
      ∀ i : Nat, min labels.length (min lefts.length rights.length) ≤ i →
        out.getD i "" = labels.getD i "" := by
  cases isMSW with
  | true =>
    refine ⟨_, align_msw measure m labels lefts rights h0,
      overwriteLabels_length _ _, fun i hi => ?_⟩
    apply overwriteLabels_getD_frame
    rw [List.length_zipWith]
    omega
  | false =>
    rcases hok with h | ⟨h2, h3⟩
    · simp at h
    · refine ⟨_, align_space measure m labels lefts rights h0 h2 h3,
        overwriteLabels_length _ _, fun i hi => ?_⟩
      apply overwriteLabels_getD_frame
      rw [List.length_map, List.length_zip]
      omega

/-- C9 witness: two items against one left text and two right texts; the
first item is relabelled and the second keeps its label. -/
theorem C9_witness :
    ∃ out, align_twosided_items false strLen 8 ["A", "B"] ["x"] ["y", "z"] =
        some out ∧
      out.length = (["A", "B"] : List String).length ∧
      ∀ i : Nat, min (["A", "B"] : List String).length
          (min (["x"] : List String).length
            (["y", "z"] : List String).length) ≤ i →
        out.getD i "" = (["A", "B"] : List String).getD i "" :=
  C9_truncation_frame false strLen 8 ["A", "B"] ["x"] ["y", "z"] (by decide)
    (Or.inr ⟨by decide, by decide⟩)
